import Mathlib

/-!
Verification of the market-nova attention aggregator and discovery screener.

The Python sources are shallowly embedded here:
* floating point numbers are modelled as exact rationals (`ℚ`);
* possibly-NaN cells (produced by pandas rolling windows over short
  histories, or by division by zero) are modelled as `Option ℚ`, with
  `none` standing for a non-finite value; comparisons against `none`
  are `false`, exactly as NumPy comparisons against NaN are `False`;
* `pandas.Series.round` / Python `round` use round-half-to-even, modelled
  by `roundHalfEven`.
-/

namespace MarketNova

/-- Round-half-to-even (banker's rounding), the rounding used by
`numpy.round` / `pandas.Series.round` / Python `round`. -/
def roundHalfEven (q : ℚ) : ℤ :=
  if q - q.floor < 1/2 then q.floor
  else if 1/2 < q - q.floor then q.floor + 1
  else if q.floor % 2 = 0 then q.floor else q.floor + 1

/-- `Series.clip(lo, hi)`: clamp into the closed interval `[lo, hi]`. -/
def clip {α : Type} [LinearOrder α] (lo hi x : α) : α :=
  max lo (min hi x)

/-- Arithmetic mean of a list (`Series.mean()`); pandas yields NaN for an
empty series, callers below only use this on provably non-empty lists. -/
def listMean (l : List ℚ) : ℚ := l.sum / l.length

/-- Minimum of `x :: xs` (`Series.min()`). -/
def listMin (x : ℚ) (xs : List ℚ) : ℚ := xs.foldl min x

/-- Maximum of `x :: xs` (`Series.max()`). -/
def listMax (x : ℚ) (xs : List ℚ) : ℚ := xs.foldl max x

section AttentionAggregator

/-- One raw attention row as produced by every provider adapter in
`src/alt/attention.py`: `{ticker, source, value, change_pct}`. -/
structure Obs where
  ticker : String
  source : String
  value : ℚ
  change_pct : ℚ
deriving DecidableEq, Repr

/-- A scored attention row: `Obs` plus the `score_100` column added by
`aggregate_attention`. -/
structure SObs where
  ticker : String
  source : String
  value : ℚ
  change_pct : ℚ
  score_100 : ℤ
deriving DecidableEq, Repr

/-- `_score_metric` (attention.py line 312): prefer `|change_pct|` when the
partition has any nonzero `change_pct` (tested as `abs().sum() > 0`), else
the raw `value` column. -/
def score_metric (df : List Obs) : List ℚ :=
  if 0 < (df.map (fun r => |r.change_pct|)).sum then
    df.map (fun r => |r.change_pct|)
  else
    df.map (fun r => r.value)

/-- `_minmax_1_100` (attention.py line 304): if the series has at most one
distinct value (`nunique(dropna=True) <= 1`) every row scores 50; otherwise
`1 + ((x - min) / (max - min) * 99.0).round()`, cast to int and clipped to
`[1, 100]`. -/
def minmax_1_100 : List ℚ → List ℤ
  | [] => []
  | x :: xs =>
    if ∀ a ∈ xs, a = x then (x :: xs).map (fun _ => (50 : ℤ))
    else
      (x :: xs).map (fun v =>
        clip 1 100 (1 + roundHalfEven
          ((v - listMin x xs) / (listMax x xs - listMin x xs) * 99)))

/-- Scores of the source partition of `raw` named `src`:
`minmax_1_100` applied to that partition's `_score_metric` series, exactly
as `groupby("source")["metric"].transform(_minmax_1_100)` does per group. -/
def scoreLookup (raw : List Obs) (src : String) : List ℤ :=
  minmax_1_100 (score_metric (raw.filter (fun r => r.source = src)))

/-- Walk the concatenated rows in order, attaching to each row the score at
its position inside its own source partition (pandas `transform` keeps each
value aligned with its original row).  `seen` is the already-processed
prefix; the positional default 1 mirrors the final
`fillna(1).astype(int)` of attention.py line 370 and is never reached. -/
def attachFrom (raw : List Obs) : List Obs → List Obs → List SObs
  | _, [] => []
  | seen, r :: rest =>
      { ticker := r.ticker, source := r.source, value := r.value,
        change_pct := r.change_pct,
        score_100 := (scoreLookup raw r.source).getD
          ((seen.filter (fun p => p.source = r.source)).length) 1 }
        :: attachFrom raw (seen ++ [r]) rest

/-- Rows of the long table of `aggregate_attention` (attention.py lines
356-371), as a function of the frames returned by the six adapters.
`pd.concat` of the non-empty frames equals the flattening of all frames,
and when every frame is empty the result has zero rows. -/
def aggregateRows (frames : List (List Obs)) : List SObs :=
  let raw := frames.flatten
  attachFrom raw [] raw

/-- The `metric` series of one source partition of the batch
(`Series.min` / `Series.max` / uniqueness below are stated against it). -/
def partitionMetrics (frames : List (List Obs)) (src : String) : List ℚ :=
  score_metric ((frames.flatten).filter (fun r => r.source = src))

/-- The `score_100` column of one source partition of the long table, in
row order. -/
def partitionScores (frames : List (List Obs)) (src : String) : List ℤ :=
  ((aggregateRows frames).filter (fun r => r.source = src)).map
    (fun r => r.score_100)

/-- `Series.min()` of a metric series (0 on an empty series, never used
there). -/
def qminL : List ℚ → ℚ
  | [] => 0
  | x :: xs => listMin x xs

/-- `Series.max()` of a metric series. -/
def qmaxL : List ℚ → ℚ
  | [] => 0
  | x :: xs => listMax x xs

/-- `nunique(dropna=True) <= 1`: all values of the series coincide. -/
def allEqL (l : List ℚ) : Prop := ∀ a ∈ l, ∀ b ∈ l, a = b

instance allEqL_decidable (l : List ℚ) : Decidable (allEqL l) :=
  inferInstanceAs (Decidable (∀ a ∈ l, ∀ b ∈ l, a = b))

/-- The long-form table: the fixed five-column schema together with its
rows.  The empty branch of `aggregate_attention` (line 358) returns
`pd.DataFrame(columns=["ticker","source","value","change_pct","score_100"])`
and the non-empty branch produces the same five columns, so the schema is
constant. -/
structure LongTable where
  cols : List String
  rows : List SObs
deriving DecidableEq, Repr

/-- One row of the wide pivot built by `build_attention` (run_once.py lines
105-107): the ticker, the per-source cells (after `fillna(1)`), and the
`Overall_Attention` column. -/
structure WideRow where
  ticker : String
  cells : List ℚ
  Overall_Attention : ℤ
deriving DecidableEq, Repr

/-- The wide table (`chatter_summary`): its columns and rows.  When the
long table is empty, `build_attention` returns a bare `pd.DataFrame()`,
which has no columns and no rows. -/
structure WideTable where
  cols : List String
  rows : List WideRow
deriving DecidableEq, Repr

/-- Distinct tickers of the long rows (the pivot index; `pivot_table`
sorts labels, but no property below depends on label order). -/
def tickersOf (rows : List SObs) : List String :=
  (rows.map (fun r => r.ticker)).dedup

/-- Distinct sources of the long rows (the pivot columns). -/
def sourcesOf (rows : List SObs) : List String :=
  (rows.map (fun r => r.source)).dedup

/-- One pivot cell:
`pivot_table(values="score_100", index="ticker", columns="source",
aggfunc="mean").fillna(1)` — the mean of the ticker-source scores, or 1
when the combination is absent. -/
def pivotCell (rows : List SObs) (t s : String) : ℚ :=
  if ((rows.filter (fun r => r.ticker = t ∧ r.source = s)).map
      (fun r => (r.score_100 : ℚ))).isEmpty
  then 1
  else listMean ((rows.filter (fun r => r.ticker = t ∧ r.source = s)).map
    (fun r => (r.score_100 : ℚ)))

/-- `Overall_Attention` for ticker `t`:
`wide.mean(axis=1).round().astype(int)` — the row mean over the source
columns (after `fillna(1)`), rounded half-to-even. -/
def overallAttention (rows : List SObs) (t : String) : ℤ :=
  roundHalfEven (listMean ((sourcesOf rows).map (pivotCell rows t)))

/-- The wide pivot of a non-empty long table. -/
def pivotWide (rows : List SObs) : WideTable :=
  { cols := sourcesOf rows ++ ["Overall_Attention"],
    rows := (tickersOf rows).map (fun t =>
      { ticker := t,
        cells := (sourcesOf rows).map (pivotCell rows t),
        Overall_Attention := overallAttention rows t }) }

end AttentionAggregator

section Providers

/-!
The six provider adapters of attention.py.  Their network transport is
external state; each adapter is embedded as a function of the ticker list
and an oracle giving the raw payload each remote call would parse (a cache
miss or `force_refresh` path; the TTL cache only replays a payload a
previous identical call stored).  What the embedding keeps faithfully from
the source is the row construction: which tickers produce a row, in which
order, and the `ticker`/`source`/`value`/`change_pct` fields.
-/

/-- Python `round(x, 2)` (banker's rounding to 2 decimal places). -/
def round2 (q : ℚ) : ℚ := (roundHalfEven (q * 100) : ℚ) / 100

/-- Python `round(x, 1)` (banker's rounding to 1 decimal place). -/
def round1 (q : ℚ) : ℚ := (roundHalfEven (q * 10) : ℚ) / 10

/-- External data each adapter would fetch, per ticker:
* `trends t`: the numeric interest-over-time samples for keyword
  `"{t} stock"`, or `none` when the response has no such column;
* `reddit_rss t`: the deduplicated post counts `(hits_24h, hits_prior)`;
* `reddit_api`: `none` when `[reddit]` credentials are missing (adapter
  disabled), else the per-ticker matching-post count;
* `stocktwits t`: the first-page message count (0 on any failure);
* `gdelt t`: the article count (0 on any failure);
* `wiki t`: the daily pageview samples of the best-guess article
  (`[]` when the title search has no hit or pageviews are empty). -/
structure Providers where
  trends : String → Option (List ℚ)
  reddit_rss : String → ℕ × ℕ
  reddit_api : Option (String → ℕ)
  stocktwits : String → ℕ
  gdelt : String → ℕ
  wiki : String → List ℕ

/-- `get_trends` (attention.py lines 72-105): batched over the first
`max_keywords = 10` tickers; a ticker without a column or with an empty
series contributes no row; `change_pct` is the percent change from the
first to the last sample (0 when the first sample is not positive);
`value` is the rounded series mean. -/
def get_trends (tickers : List String) (P : Providers) : List Obs :=
  (tickers.take 10).filterMap (fun t =>
    match P.trends t with
    | none => none
    | some s =>
      if s.length = 0 then none
      else
        let first := s.headD 0
        let last := s.getLastD 0
        let chg := if 0 < first then (last - first) / first * 100 else 0
        some { ticker := t.toUpper, source := "trends",
               value := round2 (listMean s), change_pct := round1 chg })

/-- `get_reddit_rss` (attention.py lines 108-153): one row per ticker;
`avg_prior = hits_prior / max(1, lookback_days - 1)` with the default
`lookback_days = 7`; `change_pct` is the percent deviation of the 24h
count from `avg_prior`, or 100 when `avg_prior = 0 < hits_24h`, else 0. -/
def get_reddit_rss (tickers : List String) (P : Providers) : List Obs :=
  tickers.map (fun t0 =>
    let t := t0.toUpper
    let h24 : ℚ := (P.reddit_rss t).1
    let hprior : ℚ := (P.reddit_rss t).2
    let avg_prior : ℚ := hprior / (max 1 (7 - 1))
    let chg : ℚ :=
      if 0 < avg_prior then (h24 - avg_prior) / avg_prior * 100
      else if 0 < h24 then 100 else 0
    { ticker := t, source := "reddit_rss", value := h24,
      change_pct := round1 chg })

/-- `get_reddit_api` (attention.py lines 156-201): disabled (empty frame)
without credentials; otherwise one row per ticker whose `value` and
`change_pct` are both the raw matching-post count. -/
def get_reddit_api (tickers : List String) (P : Providers) : List Obs :=
  match P.reddit_api with
  | none => []
  | some cnt => tickers.map (fun t =>
      { ticker := t.toUpper, source := "reddit_api",
        value := (cnt t : ℚ), change_pct := (cnt t : ℚ) })

/-- `get_stocktwits` (attention.py lines 204-226): one row per ticker;
`value` and `change_pct` are both the first-page message count. -/
def get_stocktwits (tickers : List String) (P : Providers) : List Obs :=
  tickers.map (fun t =>
    { ticker := t.toUpper, source := "stocktwits",
      value := (P.stocktwits t : ℚ), change_pct := (P.stocktwits t : ℚ) })

/-- `get_gdelt` (attention.py lines 229-256): one row per ticker; `value`
and `change_pct` are both the article count. -/
def get_gdelt (tickers : List String) (P : Providers) : List Obs :=
  tickers.map (fun t =>
    { ticker := t.toUpper, source := "gdelt",
      value := (P.gdelt t : ℚ), change_pct := (P.gdelt t : ℚ) })

/-- `get_wiki` (attention.py lines 259-299): capped at 30 tickers; the
default payload (`value = 0`, `change_pct = 0`) is kept when there are no
pageview samples; else `value` is the view sum and `change_pct` the
rounded percent change from the first to the last daily sample (0 when
the first sample is not positive). -/
def get_wiki (tickers : List String) (P : Providers) : List Obs :=
  (tickers.take 30).map (fun t =>
    match P.wiki t with
    | [] => { ticker := t.toUpper, source := "wiki", value := 0, change_pct := 0 }
    | v0 :: vs =>
      let last : ℚ := ((v0 :: vs).getLastD 0 : ℕ)
      let chg : ℚ := if 0 < v0 then (last - (v0 : ℚ)) / (v0 : ℚ) * 100 else 0
      { ticker := t.toUpper, source := "wiki",
        value := ((v0 :: vs).sum : ℕ), change_pct := round1 chg })

/-- `aggregate_attention` (attention.py lines 318-371): uppercase the
ticker list, collect the six adapter frames in source order, concatenate,
and attach the per-source 1-100 scores.  The five-column schema holds in
both the empty and the non-empty branch. -/
def aggregate_attention (tickers : List String) (P : Providers) : LongTable :=
  let T := tickers.map (fun t => t.toUpper)
  let frames := [get_trends T P, get_reddit_rss T P, get_reddit_api T P,
                 get_stocktwits T P, get_gdelt T P, get_wiki T P]
  { cols := ["ticker", "source", "value", "change_pct", "score_100"],
    rows := aggregateRows frames }

/-- `build_attention` (run_once.py lines 101-110): the long table plus the
wide pivot; an empty long table yields a bare `pd.DataFrame()` for the
wide table — no columns, no rows. -/
def build_attention (tickers : List String) (P : Providers) :
    LongTable × WideTable :=
  let att := aggregate_attention tickers P
  (att, if att.rows.isEmpty then ⟨[], []⟩ else pivotWide att.rows)

end Providers

section Screener

/-!
`src/discovery/screener.py`.  A price bar is one daily OHLCV row; the
screener evaluates `compute_signals` on a ticker's full history and reads
only the last row (`.iloc[-1]`).  Cells that pandas makes NaN (rolling
windows over too little history, `shift(1)` at the first row, division by
zero) are `none`; NumPy comparisons against NaN are `False`.
-/

/-- One daily price bar (`Open/High/Low/Close/Volume` columns). -/
structure Bar where
  Open : ℚ
  High : ℚ
  Low : ℚ
  Close : ℚ
  Volume : ℚ
deriving DecidableEq, Repr

def opens (bars : List Bar) : List ℚ := bars.map (fun b => b.Open)

def highs (bars : List Bar) : List ℚ := bars.map (fun b => b.High)

def closes (bars : List Bar) : List ℚ := bars.map (fun b => b.Close)

def volumes (bars : List Bar) : List ℚ := bars.map (fun b => b.Volume)

/-- Float division with NaN/Inf tracking: `none` operands propagate and a
zero denominator yields a non-finite result (`none`). -/
def odiv : Option ℚ → Option ℚ → Option ℚ
  | some a, some b => if b = 0 then none else some (a / b)
  | _, _ => none

/-- NumPy `<` on possibly-NaN cells: any NaN compares `False`. -/
def oltB : Option ℚ → Option ℚ → Bool
  | some a, some b => decide (a < b)
  | _, _ => false

/-- NumPy `<=` on possibly-NaN cells: any NaN compares `False`. -/
def oleB : Option ℚ → Option ℚ → Bool
  | some a, some b => decide (a ≤ b)
  | _, _ => false

/-- The length-`w` window of `xs` ending at index `i` (used with
`w ≤ i + 1`, so the drop is never truncated in front). -/
def window (xs : List ℚ) (w i : ℕ) : List ℚ := (xs.drop (i + 1 - w)).take w

/-- `Series.rolling(w).mean()` at index `i`: NaN (`none`) until `w`
samples exist. -/
def rollMean (w : ℕ) (xs : List ℚ) (i : ℕ) : Option ℚ :=
  if w ≤ i + 1 ∧ i < xs.length then some (listMean (window xs w i)) else none

/-- `Series.rolling(w).max()` at index `i`: NaN (`none`) until `w`
samples exist. -/
def rollMax (w : ℕ) (xs : List ℚ) (i : ℕ) : Option ℚ :=
  if w ≤ i + 1 ∧ i < xs.length then
    match window xs w i with
    | [] => none
    | y :: ys => some (listMax y ys)
  else none

/-- `Series.shift(1)` read at index `i`: the previous value, NaN at the
first row. -/
def shift1 (f : ℕ → Option ℚ) (i : ℕ) : Option ℚ :=
  if i = 0 then none else f (i - 1)

/-- The `1e-9` guard the screener adds to denominators. -/
def eps : ℚ := 1e-9

/-- `Vol20 = Volume.rolling(20).mean()` (screener.py line 34).  Note: the
window ends AT index `i`, so today's volume is included. -/
def Vol20 (bars : List Bar) (i : ℕ) : Option ℚ := rollMean 20 (volumes bars) i

/-- `VolSpike = Volume / (Vol20 + 1e-9)` (line 35). -/
def VolSpike (bars : List Bar) (i : ℕ) : Option ℚ :=
  odiv (volumes bars)[i]? ((Vol20 bars i).map (fun m => m + eps))

/-- `High20 = High.rolling(20).max()` (line 36). -/
def High20 (bars : List Bar) (i : ℕ) : Option ℚ := rollMax 20 (highs bars) i

/-- `Breakout20 = (Close > High20.shift(1)).astype(int)` (line 37): the
comparison is against the CLOSE, not the high, of today. -/
def Breakout20 (bars : List Bar) (i : ℕ) : ℤ :=
  if oltB (shift1 (High20 bars) i) (closes bars)[i]? then 1 else 0

/-- `Close.diff()` at index `i`. -/
def delta (bars : List Bar) (i : ℕ) : Option ℚ :=
  if i = 0 then none
  else match (closes bars)[i]?, (closes bars)[i-1]? with
    | some a, some b => some (a - b)
    | _, _ => none

/-- `delta.where(delta > 0, 0)` (rsi, line 10): NaN deltas fail the
condition and become 0. -/
def gains (bars : List Bar) : List ℚ :=
  (List.range bars.length).map (fun i =>
    match delta bars i with
    | some d => if 0 < d then d else 0
    | none => 0)

/-- `(-delta.where(delta < 0, 0))` (rsi, line 11): the negated losing
deltas, 0 elsewhere (including the NaN first delta, whose `where`
replacement 0 negates to 0). -/
def losses (bars : List Bar) : List ℚ :=
  (List.range bars.length).map (fun i =>
    match delta bars i with
    | some d => if d < 0 then -d else 0
    | none => 0)

/-- `rsi` (screener.py lines 8-13) read at index `i`:
`100 - 100 / (1 + gain / (loss + 1e-9))` over 14-period rolling means. -/
def RSI14 (bars : List Bar) (i : ℕ) : Option ℚ :=
  match rollMean 14 (gains bars) i, rollMean 14 (losses bars) i with
  | some g, some l => some (100 - 100 / (1 + g / (l + eps)))
  | _, _ => none

/-- `RSI_Cross_50 = ((RSI14 > 50) & (RSI14.shift(1) <= 50)).astype(int)`
(line 39). -/
def RSI_Cross_50 (bars : List Bar) (i : ℕ) : ℤ :=
  if oltB (some 50) (RSI14 bars i) && oleB (shift1 (RSI14 bars) i) (some 50)
  then 1 else 0

/-- `PctChange = Close.pct_change()` (line 40). -/
def PctChange (bars : List Bar) (i : ℕ) : Option ℚ :=
  (odiv (closes bars)[i]? (shift1 (fun j => (closes bars)[j]?) i)).map
    (fun r => r - 1)

/-- `GapUp5 = (Open > Close.shift(1) * 1.05).astype(int)` (line 41). -/
def GapUp5 (bars : List Bar) (i : ℕ) : ℤ :=
  if oltB ((shift1 (fun j => (closes bars)[j]?) i).map (fun c => c * 1.05))
      (opens bars)[i]? then 1 else 0

/-- `vol_spike` as emitted by `screen` (line 51):
`float(sig["VolSpike"]) if np.isfinite(sig["VolSpike"]) else 0.0`,
read at the last row. -/
def vol_spike_out (bars : List Bar) : ℚ :=
  match VolSpike bars (bars.length - 1) with
  | some v => v
  | none => 0

/-- The composite `discovery_score` (screen, lines 70-75):
`(vol_spike.clip(0,10) / 10) * 0.45 + breakout20 * 0.25
 + rsi_cross_50 * 0.15 + (news_sentiment.fillna(0).clip(-1,1) + 1)/2 * 0.15`.
`news_sentiment` is `none` when the left-merge had no sentiment row. -/
def discovery_score (vol_spike : ℚ) (breakout20 rsi_cross_50 : ℤ)
    (news_sentiment : Option ℚ) : ℚ :=
  clip 0 10 vol_spike / 10 * 0.45 + (breakout20 : ℚ) * 0.25
    + (rsi_cross_50 : ℚ) * 0.15
    + (clip (-1) 1 (news_sentiment.getD 0) + 1) / 2 * 0.15

/-- The discovery score of the screener's last-row signals for one
ticker's history. -/
def screen_score (bars : List Bar) (news_sentiment : Option ℚ) : ℚ :=
  discovery_score (vol_spike_out bars) (Breakout20 bars (bars.length - 1))
    (RSI_Cross_50 bars (bars.length - 1)) news_sentiment

/-- One row of the screener's output table, reduced to the fields the
ranking reads. -/
structure RankRow where
  ticker : String
  discovery_score : ℚ
deriving DecidableEq, Repr

/-- `out.sort_values("discovery_score", ascending=False)` (line 76).
pandas `nargsort` handles `ascending=False` by reversing both the values
and the index array, computing a stable ascending argsort of the
reversed values, and reversing the resulting indexer at the end.  The
double reversal makes the descending sort stable: rows with equal keys
keep their input order.  On the row list this composite is
reverse-the-input, stable ascending sort, reverse-the-output (the stable
ascending kernel is modelled by `List.insertionSort`). -/
def sort_values_desc (rows : List RankRow) : List RankRow :=
  (List.insertionSort (fun a b => a.discovery_score ≤ b.discovery_score)
    rows.reverse).reverse

instance : IsTotal RankRow
    (fun a b => a.discovery_score ≤ b.discovery_score) :=
  ⟨fun a b => le_total a.discovery_score b.discovery_score⟩

instance : IsTrans RankRow
    (fun a b => a.discovery_score ≤ b.discovery_score) :=
  ⟨fun _ _ _ h1 h2 => le_trans h1 h2⟩

/-- Modelled from the spec, for comparison with the code:
"`breakout20 = 1 if high[today] > max(high[last 20 days excluding today])
else 0`", read at the last row. -/
def breakout20_spec (bars : List Bar) : ℤ :=
  if oltB (rollMax 20 (highs bars) (bars.length - 2))
      (highs bars)[bars.length - 1]? then 1 else 0

/-- Modelled from the spec, for comparison with the code:
"`vol_spike = volume[today] / mean(volume[last 20 days excluding today])`,
undefined (NaN) if the denominator is 0", read at the last row. -/
def vol_spike_spec (bars : List Bar) : Option ℚ :=
  odiv (volumes bars)[bars.length - 1]?
    (rollMean 20 (volumes bars) (bars.length - 2))

/-- 21 days of bars whose last day has a high (20) above the prior 20-day
maximum high (10) but a close (5) below it: the spec's breakout formula
fires, the code's close-based comparison does not. -/
def barsC2 : List Bar :=
  List.replicate 20 ⟨5, 10, 1, 5, 100⟩ ++ [⟨5, 20, 1, 5, 100⟩]

/-- 21 days of bars with zero volume on the first 20 days and volume 100
today: the spec's denominator (prior 20-day mean, excluding today) is 0,
while the code's window includes today and its `1e-9` guard keeps the
quotient finite. -/
def barsC5 : List Bar :=
  List.replicate 20 ⟨1, 1, 1, 1, 0⟩ ++ [⟨1, 1, 1, 1, 100⟩]

/-- A provider oracle with no remote data at all (every request fails or
returns nothing, and Reddit credentials are absent). -/
def noData : Providers :=
  { trends := fun _ => none, reddit_rss := fun _ => (0, 0),
    reddit_api := none, stocktwits := fun _ => 0, gdelt := fun _ => 0,
    wiki := fun _ => [] }

/-- A one-frame batch: a single source `"s"` reporting values 0 and 3 for
tickers `A` and `B` (both with zero `change_pct`, so the metric falls back
to the raw values). -/
def framesEx : List (List Obs) :=
  [[⟨"A", "s", 0, 0⟩, ⟨"B", "s", 3, 0⟩]]

end Screener

section HelperLemmas

theorem rat_floor_eq_floor (q : ℚ) : q.floor = ⌊q⌋ :=
  (Rat.floor_def' q).trans Rat.floor_def.symm

theorem roundHalfEven_eq_floor_or_succ (q : ℚ) :
    roundHalfEven q = ⌊q⌋ ∨ roundHalfEven q = ⌊q⌋ + 1 := by
  unfold roundHalfEven
  rw [rat_floor_eq_floor]
  split_ifs <;> simp

theorem le_roundHalfEven {a : ℤ} {q : ℚ} (h : (a : ℚ) ≤ q) :
    a ≤ roundHalfEven q := by
  have hfl : a ≤ ⌊q⌋ := Int.le_floor.mpr h
  rcases roundHalfEven_eq_floor_or_succ q with h' | h' <;> omega

theorem roundHalfEven_le {b : ℤ} {q : ℚ} (h : q ≤ (b : ℚ)) :
    roundHalfEven q ≤ b := by
  have hfl : ⌊q⌋ ≤ b := by
    have h' := Int.floor_le_floor h
    simpa using h'
  unfold roundHalfEven
  rw [rat_floor_eq_floor]
  split_ifs with h1 h2 h3
  · exact hfl
  all_goals
  · rcases lt_or_eq_of_le hfl with hlt | heq
    · omega
    · exfalso
      have hq : q - (⌊q⌋ : ℚ) ≤ 0 := by
        rw [heq]
        linarith
      have h2' : (1 : ℚ) / 2 ≤ q - (⌊q⌋ : ℚ) := not_lt.mp h1
      linarith

theorem foldl_min_le (xs : List ℚ) :
    ∀ x : ℚ, xs.foldl min x ≤ x ∧ ∀ a ∈ xs, xs.foldl min x ≤ a := by
  induction xs with
  | nil => exact fun x => ⟨le_refl x, by simp⟩
  | cons y ys ih =>
    intro x
    have h := ih (min x y)
    refine ⟨h.1.trans (min_le_left x y), ?_⟩
    intro a ha
    rcases List.mem_cons.mp ha with rfl | ha
    · exact h.1.trans (min_le_right x a)
    · exact h.2 a ha

theorem le_foldl_max (xs : List ℚ) :
    ∀ x : ℚ, x ≤ xs.foldl max x ∧ ∀ a ∈ xs, a ≤ xs.foldl max x := by
  induction xs with
  | nil => exact fun x => ⟨le_refl x, by simp⟩
  | cons y ys ih =>
    intro x
    have h := ih (max x y)
    refine ⟨(le_max_left x y).trans h.1, ?_⟩
    intro a ha
    rcases List.mem_cons.mp ha with rfl | ha
    · exact (le_max_right x a).trans h.1
    · exact h.2 a ha

theorem listMin_le {x : ℚ} {xs : List ℚ} {a : ℚ} (ha : a ∈ x :: xs) :
    listMin x xs ≤ a := by
  unfold listMin
  rcases List.mem_cons.mp ha with rfl | ha
  · exact (foldl_min_le xs a).1
  · exact (foldl_min_le xs x).2 a ha

theorem le_listMax {x : ℚ} {xs : List ℚ} {a : ℚ} (ha : a ∈ x :: xs) :
    a ≤ listMax x xs := by
  unfold listMax
  rcases List.mem_cons.mp ha with rfl | ha
  · exact (le_foldl_max xs a).1
  · exact (le_foldl_max xs x).2 a ha

theorem le_listMean {l : List ℚ} (hl : l ≠ []) {a : ℚ}
    (h : ∀ x ∈ l, a ≤ x) : a ≤ listMean l := by
  have hlen : 0 < (l.length : ℚ) := by
    have h' := List.length_pos.mpr hl
    exact_mod_cast h'
  have hsum : (l.length : ℚ) * a ≤ l.sum := by
    have h' := List.card_nsmul_le_sum l a h
    rwa [nsmul_eq_mul] at h'
  unfold listMean
  rw [le_div_iff₀ hlen]
  linarith

theorem listMean_le {l : List ℚ} (hl : l ≠ []) {b : ℚ}
    (h : ∀ x ∈ l, x ≤ b) : listMean l ≤ b := by
  have hlen : 0 < (l.length : ℚ) := by
    have h' := List.length_pos.mpr hl
    exact_mod_cast h'
  have hsum : l.sum ≤ (l.length : ℚ) * b := by
    have h' := List.sum_le_card_nsmul l b h
    rwa [nsmul_eq_mul] at h'
  unfold listMean
  rw [div_le_iff₀ hlen]
  linarith

theorem roundHalfEven_intCast (n : ℤ) : roundHalfEven (n : ℚ) = n := by
  unfold roundHalfEven
  rw [rat_floor_eq_floor, Int.floor_intCast]
  rw [if_pos]
  norm_num

theorem le_clip {α : Type} [LinearOrder α] (lo hi x : α) : lo ≤ clip lo hi x :=
  le_max_left lo (min hi x)

theorem clip_le {α : Type} [LinearOrder α] {lo hi : α} (x : α) (h : lo ≤ hi) :
    clip lo hi x ≤ hi :=
  max_le h (min_le_left hi x)

theorem clip_eq_of_mem {α : Type} [LinearOrder α] {lo hi x : α}
    (h1 : lo ≤ x) (h2 : x ≤ hi) : clip lo hi x = x := by
  unfold clip
  rw [min_eq_right h2, max_eq_right h1]

theorem score_metric_length (df : List Obs) :
    (score_metric df).length = df.length := by
  unfold score_metric
  split_ifs <;> simp

theorem minmax_1_100_length (s : List ℚ) :
    (minmax_1_100 s).length = s.length := by
  match s with
  | [] => rfl
  | x :: xs =>
    rw [minmax_1_100]
    split_ifs <;> simp

theorem minmax_1_100_mem {s : List ℚ} {z : ℤ} (hz : z ∈ minmax_1_100 s) :
    1 ≤ z ∧ z ≤ 100 := by
  match s with
  | [] => simp [minmax_1_100] at hz
  | x :: xs =>
    rw [minmax_1_100] at hz
    split_ifs at hz with hc
    · rw [List.mem_map] at hz
      obtain ⟨v, _, rfl⟩ := hz
      omega
    · rw [List.mem_map] at hz
      obtain ⟨v, _, rfl⟩ := hz
      exact ⟨le_clip 1 100 _, clip_le _ (by norm_num)⟩

theorem listMin_lt_listMax {x : ℚ} {xs : List ℚ}
    (hne : ¬ ∀ a ∈ xs, a = x) : listMin x xs < listMax x xs := by
  push_neg at hne
  obtain ⟨a, ha, hax⟩ := hne
  have h1 := listMin_le (List.mem_cons_self x xs)
  have h2 := listMin_le (List.mem_cons_of_mem x ha)
  have h3 := le_listMax (List.mem_cons_self x xs)
  have h4 := le_listMax (List.mem_cons_of_mem x ha)
  rcases lt_or_gt_of_ne hax with h | h <;> linarith

/-- The min-max score of a value equal to the partition minimum is 1. -/
theorem minmax_score_min {x : ℚ} {xs : List ℚ} :
    clip 1 100 (1 + roundHalfEven
      ((listMin x xs - listMin x xs) / (listMax x xs - listMin x xs) * 99))
      = 1 := by
  rw [sub_self, zero_div, zero_mul]
  rw [show ((0 : ℚ) = ((0 : ℤ) : ℚ)) by norm_num, roundHalfEven_intCast]
  unfold clip
  norm_num

/-- The min-max score of a value equal to the partition maximum is 100
(when not all values agree). -/
theorem minmax_score_max {x : ℚ} {xs : List ℚ} (hne : ¬ ∀ a ∈ xs, a = x) :
    clip 1 100 (1 + roundHalfEven
      ((listMax x xs - listMin x xs) / (listMax x xs - listMin x xs) * 99))
      = 100 := by
  have hΔ : listMax x xs - listMin x xs ≠ 0 :=
    ne_of_gt (sub_pos.mpr (listMin_lt_listMax hne))
  rw [div_self hΔ, one_mul]
  rw [show ((99 : ℚ) = ((99 : ℤ) : ℚ)) by norm_num, roundHalfEven_intCast]
  unfold clip
  norm_num

/-- Walking `attachFrom`, the scores of the rows of source `s` are read
off `scoreLookup raw s` starting at the number of `s`-rows already seen. -/
theorem attachFrom_filter_map (raw : List Obs) (s : String) :
    ∀ (rest seen : List Obs),
      (seen.filter (fun p => p.source = s)).length
          + (rest.filter (fun p => p.source = s)).length
          ≤ (scoreLookup raw s).length →
      ((attachFrom raw seen rest).filter (fun r => r.source = s)).map
          (fun r => r.score_100)
        = ((scoreLookup raw s).drop
            (seen.filter (fun p => p.source = s)).length).take
            ((rest.filter (fun p => p.source = s)).length) := by
  intro rest
  induction rest with
  | nil => intro seen _; simp [attachFrom]
  | cons r rest' ih =>
    intro seen hlen
    rw [attachFrom]
    by_cases hsrc : r.source = s
    · subst hsrc
      have hseen : ((seen ++ [r]).filter
          (fun p => p.source = r.source)).length
          = (seen.filter (fun p => p.source = r.source)).length + 1 := by
        simp [List.filter_append]
      have hrest : ((r :: rest').filter
          (fun p => p.source = r.source)).length
          = (rest'.filter (fun p => p.source = r.source)).length + 1 := by
        simp [List.filter_cons]
      rw [hrest] at hlen
      have hk : (seen.filter (fun p => p.source = r.source)).length
          < (scoreLookup raw r.source).length := by omega
      have ihh := ih (seen ++ [r]) (by rw [hseen]; omega)
      rw [hseen] at ihh
      rw [List.filter_cons_of_pos (by simp), List.map_cons, ihh, hrest,
        List.drop_eq_getElem_cons hk, List.take_succ_cons]
      congr 1
      simp [List.getD_eq_getElem?_getD, List.getElem?_eq_getElem hk]
    · have hseen : ((seen ++ [r]).filter (fun p => p.source = s)).length
          = (seen.filter (fun p => p.source = s)).length := by
        simp [List.filter_append, List.filter_cons, hsrc]
      have hrest : ((r :: rest').filter (fun p => p.source = s)).length
          = (rest'.filter (fun p => p.source = s)).length := by
        simp [List.filter_cons, hsrc]
      rw [hrest] at hlen
      have ihh := ih (seen ++ [r]) (by rw [hseen]; omega)
      rw [hseen] at ihh
      rw [List.filter_cons_of_neg (by simp [hsrc]), ihh, hrest]

/-- In the long table, the column of `score_100` values of any source
partition equals `minmax_1_100` of that partition's `_score_metric`
series. -/
theorem aggregateRows_partition (frames : List (List Obs)) (s : String) :
    ((aggregateRows frames).filter (fun r => r.source = s)).map
        (fun r => r.score_100)
      = scoreLookup frames.flatten s := by
  unfold aggregateRows
  have hlen : ((frames.flatten).filter (fun p => p.source = s)).length
      = (scoreLookup frames.flatten s).length := by
    unfold scoreLookup
    rw [minmax_1_100_length, score_metric_length]
  have h := attachFrom_filter_map frames.flatten s frames.flatten []
  simp only [List.filter_nil, List.length_nil, Nat.zero_add, List.drop_zero]
    at h
  rw [h (le_of_eq hlen), hlen, List.take_length]

/-- Every score `attachFrom` attaches lies in `[1, 100]` (either a member
of a `minmax_1_100` output, or the positional default 1). -/
theorem attachFrom_score_range (raw : List Obs) :
    ∀ (rest seen : List Obs), ∀ r ∈ attachFrom raw seen rest,
      1 ≤ r.score_100 ∧ r.score_100 ≤ 100 := by
  intro rest
  induction rest with
  | nil => intro seen r hr; simp [attachFrom] at hr
  | cons p rest' ih =>
    intro seen r hr
    rw [attachFrom] at hr
    rcases List.mem_cons.mp hr with rfl | hr
    · simp only
      set sc := scoreLookup raw p.source with hsc
      set k := (seen.filter (fun q => q.source = p.source)).length with hk
      by_cases hlt : k < sc.length
      · have : sc.getD k 1 = sc[k] := by
          simp [List.getD_eq_getElem?_getD, List.getElem?_eq_getElem hlt]
        rw [this]
        exact minmax_1_100_mem (List.getElem_mem hlt)
      · rw [List.getD_eq_default _ _ (le_of_not_lt hlt)]
        omega
    · exact ih (seen ++ [p]) r hr

/-- Every `score_100` in the long table lies in `[1, 100]`. -/
theorem aggregateRows_score_range {frames : List (List Obs)} {r : SObs}
    (hr : r ∈ aggregateRows frames) : 1 ≤ r.score_100 ∧ r.score_100 ≤ 100 :=
  attachFrom_score_range frames.flatten frames.flatten [] r hr

theorem foldl_max_mem (xs : List ℚ) : ∀ x : ℚ, xs.foldl max x ∈ x :: xs := by
  induction xs with
  | nil => intro x; simp
  | cons y ys ih =>
    intro x
    have h := ih (max x y)
    rw [List.foldl_cons]
    rcases List.mem_cons.mp h with h' | h'
    · rcases max_choice x y with hm | hm
      · rw [h', hm]
        exact List.mem_cons_self x (y :: ys)
      · rw [h', hm]
        exact List.mem_cons_of_mem x (List.mem_cons_self y ys)
    · exact List.mem_cons_of_mem x (List.mem_cons_of_mem y h')

theorem listMax_mem (x : ℚ) (xs : List ℚ) : listMax x xs ∈ x :: xs :=
  foldl_max_mem xs x

theorem getD_map_lt {l : List ℚ} (f : ℚ → ℤ) {i : ℕ} (h : i < l.length)
    (d : ℤ) : (l.map f).getD i d = f (l.getD i 0) := by
  have h' : i < (l.map f).length := by simpa using h
  rw [List.getD_eq_getElem?_getD, List.getElem?_eq_getElem h',
    List.getElem_map, List.getD_eq_getElem?_getD,
    List.getElem?_eq_getElem h]
  rfl

theorem allEqL_cons_iff {x : ℚ} {xs : List ℚ} :
    allEqL (x :: xs) ↔ ∀ a ∈ xs, a = x := by
  unfold allEqL
  constructor
  · intro h a ha
    exact h a (List.mem_cons_of_mem x ha) x (List.mem_cons_self x xs)
  · intro h a ha b hb
    rcases List.mem_cons.mp ha with rfl | ha' <;>
      rcases List.mem_cons.mp hb with rfl | hb'
    · rfl
    · exact (h b hb').symm
    · exact h a ha'
    · rw [h a ha', h b hb']

theorem Breakout20_zero_or_one (bars : List Bar) (i : ℕ) :
    Breakout20 bars i = 0 ∨ Breakout20 bars i = 1 := by
  unfold Breakout20
  split_ifs <;> simp

theorem RSI_Cross_50_zero_or_one (bars : List Bar) (i : ℕ) :
    RSI_Cross_50 bars i = 0 ∨ RSI_Cross_50 bars i = 1 := by
  unfold RSI_Cross_50
  split_ifs <;> simp

theorem GapUp5_zero_or_one (bars : List Bar) (i : ℕ) :
    GapUp5 bars i = 0 ∨ GapUp5 bars i = 1 := by
  unfold GapUp5
  split_ifs <;> simp

theorem oltB_none_left (b : Option ℚ) : oltB none b = false := rfl

theorem oleB_none_left (b : Option ℚ) : oleB none b = false := rfl

theorem odiv_none_right (a : Option ℚ) : odiv a none = none := by
  cases a <;> rfl

theorem filter_orderedInsert_score (q : ℚ) (x : RankRow) :
    ∀ l : List RankRow,
      ((l.orderedInsert (fun a b => a.discovery_score ≤ b.discovery_score)
          x).filter (fun r => r.discovery_score = q))
        = if x.discovery_score = q
          then x :: l.filter (fun r => r.discovery_score = q)
          else l.filter (fun r => r.discovery_score = q) := by
  intro l
  induction l with
  | nil =>
    rw [List.orderedInsert_nil]
    by_cases hx : x.discovery_score = q <;> simp [List.filter_cons, hx]
  | cons b l ih =>
    rw [List.orderedInsert]
    by_cases hxb : x.discovery_score ≤ b.discovery_score
    · rw [if_pos hxb]
      by_cases hx : x.discovery_score = q <;>
        by_cases hbq : b.discovery_score = q <;>
          simp [List.filter_cons, hx, hbq]
    · rw [if_neg hxb]
      have hb : b.discovery_score < x.discovery_score := lt_of_not_le hxb
      rw [List.filter_cons, ih]
      by_cases hx : x.discovery_score = q
      · have hbq : ¬ b.discovery_score = q := fun hbq =>
          absurd (hbq.trans hx.symm) (ne_of_lt hb)
        simp [List.filter_cons, hx, hbq]
      · by_cases hbq : b.discovery_score = q <;>
          simp [List.filter_cons, hx, hbq]

theorem filter_insertionSort_score (q : ℚ) (l : List RankRow) :
    ((List.insertionSort
        (fun a b => a.discovery_score ≤ b.discovery_score) l).filter
      (fun r => r.discovery_score = q))
      = l.filter (fun r => r.discovery_score = q) := by
  induction l with
  | nil => rfl
  | cons x l ih =>
    rw [List.insertionSort, filter_orderedInsert_score, ih, List.filter_cons]
    by_cases h : x.discovery_score = q <;> simp [h]

theorem charOfNat_toNat_small : ∀ m : ℕ, m < 123 → (Char.ofNat m).toNat = m := by
  decide

theorem char_toUpper_idem (c : Char) : c.toUpper.toUpper = c.toUpper := by
  by_cases h : c.toNat ≥ 97 ∧ c.toNat ≤ 122
  · have h1 : c.toUpper = Char.ofNat (c.toNat - 32) := by
      simp only [Char.toUpper]
      rw [if_pos h]
    have hv : (Char.ofNat (c.toNat - 32)).toNat = c.toNat - 32 :=
      charOfNat_toNat_small _ (by omega)
    rw [h1]
    simp only [Char.toUpper]
    rw [if_neg (by rw [hv]; omega)]
  · have h1 : c.toUpper = c := by
      simp only [Char.toUpper]
      rw [if_neg h]
    rw [h1, h1]

theorem string_toUpper_idem (s : String) : s.toUpper.toUpper = s.toUpper := by
  simp only [String.toUpper, String.map_eq]
  congr 1
  show (s.data.map Char.toUpper).map Char.toUpper = s.data.map Char.toUpper
  rw [List.map_map]
  exact List.map_congr_left (fun c _ => char_toUpper_idem c)

/-- Every row attached by `attachFrom` carries the ticker of one of the
raw rows it walks. -/
theorem attachFrom_ticker (raw : List Obs) :
    ∀ (rest seen : List Obs), ∀ r ∈ attachFrom raw seen rest,
      ∃ p ∈ rest, r.ticker = p.ticker := by
  intro rest
  induction rest with
  | nil => intro seen r hr; simp [attachFrom] at hr
  | cons p rest' ih =>
    intro seen r hr
    rw [attachFrom] at hr
    rcases List.mem_cons.mp hr with rfl | hr
    · exact ⟨p, List.mem_cons_self p rest', rfl⟩
    · obtain ⟨p', hp', he⟩ := ih (seen ++ [p]) r hr
      exact ⟨p', List.mem_cons_of_mem p hp', he⟩

theorem get_trends_ticker {T : List String} {P : Providers} {p : Obs}
    (hp : p ∈ get_trends T P) : ∃ u ∈ T, p.ticker = u.toUpper := by
  unfold get_trends at hp
  rw [List.mem_filterMap] at hp
  obtain ⟨t, ht, heq⟩ := hp
  refine ⟨t, List.mem_of_mem_take ht, ?_⟩
  rcases hP : P.trends t with _ | s <;> rw [hP] at heq
  · simp at heq
  · by_cases hs : s.length = 0
    · simp [hs] at heq
    · simp only [if_neg hs, Option.some.injEq] at heq
      rw [← heq]

theorem get_reddit_rss_ticker {T : List String} {P : Providers} {p : Obs}
    (hp : p ∈ get_reddit_rss T P) : ∃ u ∈ T, p.ticker = u.toUpper := by
  unfold get_reddit_rss at hp
  rw [List.mem_map] at hp
  obtain ⟨t, ht, heq⟩ := hp
  exact ⟨t, ht, by rw [← heq]⟩

theorem get_reddit_api_ticker {T : List String} {P : Providers} {p : Obs}
    (hp : p ∈ get_reddit_api T P) : ∃ u ∈ T, p.ticker = u.toUpper := by
  unfold get_reddit_api at hp
  rcases hc : P.reddit_api with _ | cnt <;> rw [hc] at hp
  · simp at hp
  · rw [List.mem_map] at hp
    obtain ⟨t, ht, heq⟩ := hp
    exact ⟨t, ht, by rw [← heq]⟩

theorem get_stocktwits_ticker {T : List String} {P : Providers} {p : Obs}
    (hp : p ∈ get_stocktwits T P) : ∃ u ∈ T, p.ticker = u.toUpper := by
  unfold get_stocktwits at hp
  rw [List.mem_map] at hp
  obtain ⟨t, ht, heq⟩ := hp
  exact ⟨t, ht, by rw [← heq]⟩

theorem get_gdelt_ticker {T : List String} {P : Providers} {p : Obs}
    (hp : p ∈ get_gdelt T P) : ∃ u ∈ T, p.ticker = u.toUpper := by
  unfold get_gdelt at hp
  rw [List.mem_map] at hp
  obtain ⟨t, ht, heq⟩ := hp
  exact ⟨t, ht, by rw [← heq]⟩

theorem get_wiki_ticker {T : List String} {P : Providers} {p : Obs}
    (hp : p ∈ get_wiki T P) : ∃ u ∈ T, p.ticker = u.toUpper := by
  unfold get_wiki at hp
  rw [List.mem_map] at hp
  obtain ⟨t, ht, heq⟩ := hp
  refine ⟨t, List.mem_of_mem_take ht, ?_⟩
  rcases hw : P.wiki t with _ | ⟨v0, vs⟩ <;> rw [hw] at heq <;> rw [← heq]

/-- Every cell of the wide pivot over an aggregated long table lies in
`[1, 100]`. -/
theorem pivotCell_range (frames : List (List Obs)) (t s : String) :
    1 ≤ pivotCell (aggregateRows frames) t s
      ∧ pivotCell (aggregateRows frames) t s ≤ 100 := by
  unfold pivotCell
  split_ifs with he
  · norm_num
  · have hxs : ((aggregateRows frames).filter
        (fun r => r.ticker = t ∧ r.source = s)).map
          (fun r => (r.score_100 : ℚ)) ≠ [] := by
      intro hnil
      rw [hnil] at he
      simp at he
    constructor
    · apply le_listMean hxs
      intro x hx
      rw [List.mem_map] at hx
      obtain ⟨r, hr, rfl⟩ := hx
      have hrange := aggregateRows_score_range (List.mem_of_mem_filter hr)
      exact_mod_cast hrange.1
    · apply listMean_le hxs
      intro x hx
      rw [List.mem_map] at hx
      obtain ⟨r, hr, rfl⟩ := hx
      have hrange := aggregateRows_score_range (List.mem_of_mem_filter hr)
      exact_mod_cast hrange.2

end HelperLemmas

section Claims

/-- **C1**: within any source partition of an aggregated batch, when the
partition's metric series has at least two distinct values, a row whose
metric equals the partition minimum receives `score_100 = 1` and a row
whose metric equals the maximum receives `score_100 = 100`; every
`score_100` is an integer in `[1, 100]`; and when all metric values of
the partition coincide, every row receives `score_100 = 50`. -/
theorem C1_per_source_minmax_invariant (frames : List (List Obs))
    (src : String) (i j : ℕ)
    (hi : i < (partitionMetrics frames src).length)
    (hj : j < (partitionMetrics frames src).length)
    (hmin : (partitionMetrics frames src).getD i 0
      = qminL (partitionMetrics frames src))
    (hmax : (partitionMetrics frames src).getD j 0
      = qmaxL (partitionMetrics frames src)) :
    (¬ allEqL (partitionMetrics frames src) →
        (partitionScores frames src).getD i 0 = 1
          ∧ (partitionScores frames src).getD j 0 = 100)
      ∧ (∀ z ∈ partitionScores frames src, 1 ≤ z ∧ z ≤ 100)
      ∧ (allEqL (partitionMetrics frames src) →
          ∀ z ∈ partitionScores frames src, z = 50) := by
  have hps : partitionScores frames src
      = minmax_1_100 (partitionMetrics frames src) := by
    unfold partitionScores partitionMetrics
    rw [aggregateRows_partition]
    rfl
  rcases hms : partitionMetrics frames src with _ | ⟨x, xs⟩
  · rw [hms] at hi
    simp at hi
  · rw [hms] at hmin hmax hi hj
    rw [hms] at hps
    by_cases hall : ∀ a ∈ xs, a = x
    · refine ⟨?_, ?_, ?_⟩
      · intro hne
        exact absurd (allEqL_cons_iff.mpr hall) hne
      · intro z hz
        rw [hps] at hz
        exact minmax_1_100_mem hz
      · intro _ z hz
        rw [hps] at hz
        rw [minmax_1_100, if_pos hall] at hz
        rw [List.mem_map] at hz
        obtain ⟨v, _, rfl⟩ := hz
        rfl
    · have hmm : minmax_1_100 (x :: xs) = (x :: xs).map (fun v =>
          clip 1 100 (1 + roundHalfEven
            ((v - listMin x xs) / (listMax x xs - listMin x xs) * 99))) := by
        rw [minmax_1_100, if_neg hall]
      refine ⟨?_, ?_, ?_⟩
      · intro _
        rw [hps, hmm]
        constructor
        · rw [getD_map_lt _ hi, hmin]
          exact minmax_score_min
        · rw [getD_map_lt _ hj, hmax]
          exact minmax_score_max hall
      · intro z hz
        rw [hps] at hz
        exact minmax_1_100_mem hz
      · intro hall'
        exact absurd (allEqL_cons_iff.mp hall') hall

/-- Witness for C1 at the concrete batch `framesEx`: the minimum metric
(value 0) scores 1 and the maximum (value 3) scores 100. -/
theorem C1_witness :
    (partitionScores framesEx "s").getD 0 0 = 1
      ∧ (partitionScores framesEx "s").getD 1 0 = 100 :=
  (C1_per_source_minmax_invariant framesEx "s" 0 1
    (by with_unfolding_all decide) (by with_unfolding_all decide)
    (by with_unfolding_all decide) (by with_unfolding_all decide)).1
    (by with_unfolding_all decide)

/-- **C3** (counterexample): the claimed outputs `[1, 50, 100]` for metric
values `[0, 50, 100]` and `[1, 10, 100]` for `[0, 10, 100]` are NOT what
`_minmax_1_100` produces. -/
theorem C3_counterexample :
    minmax_1_100 [0, 50, 100] ≠ [1, 50, 100]
      ∧ minmax_1_100 [0, 10, 100] ≠ [1, 10, 100] := by
  with_unfolding_all decide

/-- **C3** (amended): the formula `1 + round((x-min)/(max-min)*99)` (with
round-half-to-even, as NumPy rounds) maps metric values `[0, 50, 100]` to
scores `[1, 51, 100]` (the midpoint lands on 49.5, which rounds to 50,
giving 51) and `[0, 10, 100]` to `[1, 11, 100]`. -/
theorem C3_amended_scores :
    minmax_1_100 [0, 50, 100] = [1, 51, 100]
      ∧ minmax_1_100 [0, 10, 100] = [1, 11, 100] := by
  with_unfolding_all decide

/-- **C6** (amended): when zero adapters return data, the long table keeps
its five-column schema with zero rows, but the wide table is a bare
`pd.DataFrame()` with NO columns at all (the claimed wide schema is
absent). -/
theorem C6_empty_aggregate (P : Providers) :
    (build_attention [] P).1.cols
        = ["ticker", "source", "value", "change_pct", "score_100"]
      ∧ (build_attention [] P).1.rows = []
      ∧ (build_attention [] P).2.cols = []
      ∧ (build_attention [] P).2.rows = [] := by
  rcases hc : P.reddit_api with _ | cnt <;>
    simp [build_attention, aggregate_attention, get_trends, get_reddit_rss,
      get_reddit_api, get_stocktwits, get_gdelt, get_wiki, aggregateRows,
      attachFrom, hc]

/-- **C6** (counterexample): with zero adapters returning data, the wide
table does not carry its expected columns — it has no columns at all, in
particular no `Overall_Attention`. -/
theorem C6_counterexample :
    (build_attention [] noData).2.cols = []
      ∧ "Overall_Attention" ∉ (build_attention [] noData).2.cols := by
  with_unfolding_all decide

/-- **C7**: every row of the wide attention summary has
`Overall_Attention` equal to the rounded mean of that ticker's per-source
`score_100` cells (missing ticker-source combinations contributing 1),
and `Overall_Attention` always lies in `[1, 100]`. -/
theorem C7_overall_attention (frames : List (List Obs)) (w : WideRow)
    (hw : w ∈ (pivotWide (aggregateRows frames)).rows) :
    w.Overall_Attention
        = roundHalfEven (listMean ((sourcesOf (aggregateRows frames)).map
            (pivotCell (aggregateRows frames) w.ticker)))
      ∧ 1 ≤ w.Overall_Attention ∧ w.Overall_Attention ≤ 100 := by
  unfold pivotWide at hw
  simp only [List.mem_map] at hw
  obtain ⟨t, ht, rfl⟩ := hw
  have hrow : aggregateRows frames ≠ [] := by
    intro h0
    rw [h0] at ht
    simp [tickersOf] at ht
  have hsrc : sourcesOf (aggregateRows frames) ≠ [] := by
    unfold sourcesOf
    intro h0
    rw [List.dedup_eq_nil, List.map_eq_nil_iff] at h0
    exact hrow h0
  have hcells : (sourcesOf (aggregateRows frames)).map
      (pivotCell (aggregateRows frames) t) ≠ [] := by
    intro h0
    rw [List.map_eq_nil_iff] at h0
    exact hsrc h0
  have hmean1 : (1 : ℚ) ≤ listMean ((sourcesOf (aggregateRows frames)).map
      (pivotCell (aggregateRows frames) t)) := by
    apply le_listMean hcells
    intro c hc
    rw [List.mem_map] at hc
    obtain ⟨s, _, rfl⟩ := hc
    exact (pivotCell_range frames t s).1
  have hmean100 : listMean ((sourcesOf (aggregateRows frames)).map
      (pivotCell (aggregateRows frames) t)) ≤ 100 := by
    apply listMean_le hcells
    intro c hc
    rw [List.mem_map] at hc
    obtain ⟨s, _, rfl⟩ := hc
    exact (pivotCell_range frames t s).2
  refine ⟨rfl, ?_, ?_⟩
  · exact le_roundHalfEven (by exact_mod_cast hmean1)
  · exact roundHalfEven_le (by exact_mod_cast hmean100)

/-- Witness for C7 at the concrete batch `framesEx`: ticker `A` has the
single source cell 1, so its `Overall_Attention` is 1 and lies in
`[1, 100]`. -/
theorem C7_witness :
    ((⟨"A", [1], 1⟩ : WideRow) ∈ (pivotWide (aggregateRows framesEx)).rows)
      ∧ ((⟨"A", [1], 1⟩ : WideRow).Overall_Attention
            = roundHalfEven (listMean
              ((sourcesOf (aggregateRows framesEx)).map
                (pivotCell (aggregateRows framesEx)
                  (⟨"A", [1], 1⟩ : WideRow).ticker)))
          ∧ 1 ≤ (⟨"A", [1], 1⟩ : WideRow).Overall_Attention
          ∧ (⟨"A", [1], 1⟩ : WideRow).Overall_Attention ≤ 100) :=
  ⟨by with_unfolding_all decide,
   C7_overall_attention framesEx _ (by with_unfolding_all decide)⟩

/-- **C10**: every ticker in the long table returned by
`aggregate_attention` is the uppercase form of one of the input tickers,
whatever the case of the input (the aggregator uppercases the list and
every adapter uppercases again when building rows). -/
theorem C10_long_tickers_uppercase (tickers : List String) (P : Providers)
    (r : SObs) (hr : r ∈ (aggregate_attention tickers P).rows) :
    r.ticker ∈ tickers.map String.toUpper := by
  unfold aggregate_attention at hr
  simp only [aggregateRows] at hr
  obtain ⟨p, hp, hpt⟩ := attachFrom_ticker _ _ _ r hr
  rw [List.mem_flatten] at hp
  obtain ⟨f, hf, hpf⟩ := hp
  have hdone : ∀ u ∈ tickers.map String.toUpper, p.ticker = u.toUpper →
      r.ticker ∈ tickers.map String.toUpper := by
    intro u hu hpu
    rw [List.mem_map] at hu
    obtain ⟨t, ht, rfl⟩ := hu
    rw [hpt, hpu, string_toUpper_idem]
    exact List.mem_map_of_mem String.toUpper ht
  simp only [List.mem_cons, List.not_mem_nil, or_false] at hf
  rcases hf with rfl | rfl | rfl | rfl | rfl | rfl
  · obtain ⟨u, hu, hpu⟩ := get_trends_ticker hpf
    exact hdone u hu hpu
  · obtain ⟨u, hu, hpu⟩ := get_reddit_rss_ticker hpf
    exact hdone u hu hpu
  · obtain ⟨u, hu, hpu⟩ := get_reddit_api_ticker hpf
    exact hdone u hu hpu
  · obtain ⟨u, hu, hpu⟩ := get_stocktwits_ticker hpf
    exact hdone u hu hpu
  · obtain ⟨u, hu, hpu⟩ := get_gdelt_ticker hpf
    exact hdone u hu hpu
  · obtain ⟨u, hu, hpu⟩ := get_wiki_ticker hpf
    exact hdone u hu hpu

/-- Witness for C10: with lowercase input `"aapl"` and no remote data,
the reddit-feed row of the long table carries ticker `"AAPL"`, which is
in the uppercased input list. -/
theorem C10_witness :
    ((⟨"AAPL", "reddit_rss", 0, 0, 50⟩ : SObs)
        ∈ (aggregate_attention ["aapl"] noData).rows)
      ∧ (⟨"AAPL", "reddit_rss", 0, 0, 50⟩ : SObs).ticker
          ∈ ["aapl"].map String.toUpper :=
  ⟨by with_unfolding_all decide,
   C10_long_tickers_uppercase ["aapl"] noData _
     (by with_unfolding_all decide)⟩

set_option maxRecDepth 8000 in
/-- **C2** (counterexample): on `barsC2` the last day's high (20) strictly
exceeds the prior 20-day maximum high (10), so the spec's formula fires,
but the code compares the CLOSE (5) and emits 0. -/
theorem C2_counterexample :
    Breakout20 barsC2 (barsC2.length - 1) = 0
      ∧ breakout20_spec barsC2 = 1 := by
  with_unfolding_all decide

/-- **C2** (amended): with at least 21 bars, `breakout20` of the last day
is 1 iff that day's CLOSE strictly exceeds every high of the prior 20
days (equivalently, their maximum); a close equal to the prior maximum
yields 0. -/
theorem C2_amended_breakout_close (bars : List Bar)
    (h : 21 ≤ bars.length) :
    Breakout20 bars (bars.length - 1) = 1
      ↔ ∀ x ∈ window (highs bars) 20 (bars.length - 2),
          x < (closes bars).getD (bars.length - 1) 0 := by
  have hn0 : bars.length - 1 ≠ 0 := by omega
  have hcl : (closes bars).length = bars.length := by simp [closes]
  have hcl' : bars.length - 1 < (closes bars).length := by omega
  have hc : (closes bars)[bars.length - 1]?
      = some ((closes bars).getD (bars.length - 1) 0) := by
    rw [List.getElem?_eq_getElem hcl', List.getD_eq_getElem?_getD,
      List.getElem?_eq_getElem hcl']
    rfl
  have hhl : (highs bars).length = bars.length := by simp [highs]
  have hwlen : (window (highs bars) 20 (bars.length - 2)).length = 20 := by
    unfold window
    rw [List.length_take, List.length_drop, hhl]
    omega
  rcases hw : window (highs bars) 20 (bars.length - 2) with _ | ⟨y, ys⟩
  · rw [hw] at hwlen
    simp at hwlen
  · have hmax : High20 bars (bars.length - 2) = some (listMax y ys) := by
      unfold High20 rollMax
      rw [if_pos ⟨by omega, by rw [hhl]; omega⟩, hw]
    have h11 : bars.length - 1 - 1 = bars.length - 2 := by omega
    unfold Breakout20
    unfold shift1
    rw [if_neg hn0, h11, hmax, hc]
    simp only [oltB]
    by_cases hlt : listMax y ys < (closes bars).getD (bars.length - 1) 0
    · rw [if_pos (by simpa using hlt)]
      constructor
      · intro _ x hx
        exact lt_of_le_of_lt (le_listMax hx) hlt
      · intro _
        rfl
    · rw [if_neg (by simpa using hlt)]
      constructor
      · intro h0
        exact absurd h0 (by norm_num)
      · intro hall
        exact absurd (hall (listMax y ys) (listMax_mem y ys)) hlt

/-- Witness for C2 (amended) at `barsC2`: the hypothesis holds and the
equivalence is settled there (the close 5 does not exceed the prior high
10, so both sides are false). -/
theorem C2_witness :
    21 ≤ barsC2.length
      ∧ (Breakout20 barsC2 (barsC2.length - 1) = 1
          ↔ ∀ x ∈ window (highs barsC2) 20 (barsC2.length - 2),
              x < (closes barsC2).getD (barsC2.length - 1) 0) :=
  ⟨by with_unfolding_all decide,
   C2_amended_breakout_close barsC2 (by with_unfolding_all decide)⟩

/-- **C4**: the composite score emitted by `screen` equals the spec's
weighted sum `0.45·clip(vol_spike,0,10)/10 + 0.25·breakout20 +
0.15·rsi_cross_50 + 0.15·(clip(news_sentiment,-1,1)+1)/2` (with a missing
sentiment treated as 0), and it always lies in `[0, 1]`. -/
theorem C4_discovery_score_bounds (bars : List Bar) (news : Option ℚ) :
    screen_score bars news
        = 0.45 * (clip 0 10 (vol_spike_out bars) / 10)
          + 0.25 * (Breakout20 bars (bars.length - 1) : ℚ)
          + 0.15 * (RSI_Cross_50 bars (bars.length - 1) : ℚ)
          + 0.15 * ((clip (-1) 1 (news.getD 0) + 1) / 2)
      ∧ 0 ≤ screen_score bars news ∧ screen_score bars news ≤ 1 := by
  have hv1 : (0 : ℚ) ≤ clip 0 10 (vol_spike_out bars) := le_clip 0 10 _
  have hv2 : clip 0 10 (vol_spike_out bars) ≤ 10 :=
    clip_le _ (by norm_num)
  have hb : (0 : ℚ) ≤ (Breakout20 bars (bars.length - 1) : ℚ)
      ∧ (Breakout20 bars (bars.length - 1) : ℚ) ≤ 1 := by
    rcases Breakout20_zero_or_one bars (bars.length - 1) with h | h <;>
      rw [h] <;> norm_num
  have hr : (0 : ℚ) ≤ (RSI_Cross_50 bars (bars.length - 1) : ℚ)
      ∧ (RSI_Cross_50 bars (bars.length - 1) : ℚ) ≤ 1 := by
    rcases RSI_Cross_50_zero_or_one bars (bars.length - 1) with h | h <;>
      rw [h] <;> norm_num
  have hn1 : (-1 : ℚ) ≤ clip (-1) 1 (news.getD 0) := le_clip (-1) 1 _
  have hn2 : clip (-1) 1 (news.getD 0) ≤ 1 := clip_le _ (by norm_num)
  unfold screen_score discovery_score
  refine ⟨by ring, by linarith [hb.1, hr.1], by linarith [hb.2, hr.2]⟩

set_option maxRecDepth 8000 in
/-- **C5** (counterexample): on `barsC5` the spec's vol_spike (prior
20-day mean volume, excluding today) has denominator 0 and is NaN, while
the code's window includes today (mean 5) and its `1e-9` guard makes the
result the finite value `100 / (5 + 1e-9)`. -/
theorem C5_counterexample :
    vol_spike_spec barsC5 = none
      ∧ VolSpike barsC5 (barsC5.length - 1) = some (100 / (5 + eps))
      ∧ VolSpike barsC5 (barsC5.length - 1) ≠ vol_spike_spec barsC5 := by
  have ha : vol_spike_spec barsC5 = none := by
    with_unfolding_all decide
  have hd : Vol20 barsC5 (barsC5.length - 1) = some 5 := by
    with_unfolding_all decide
  have he : (volumes barsC5)[barsC5.length - 1]? = some 100 := by
    with_unfolding_all decide
  have hb : VolSpike barsC5 (barsC5.length - 1) = some (100 / (5 + eps)) := by
    unfold VolSpike
    rw [hd, he]
    simp only [Option.map_some']
    simp only [odiv]
    rw [if_neg (by norm_num [eps])]
  refine ⟨ha, hb, ?_⟩
  rw [ha, hb]
  simp

/-- **C5** (amended): with at least 20 bars of nonnegative volume, the
last day's vol_spike equals today's volume divided by the mean volume of
the last 20 days INCLUDING today plus the `1e-9` guard — in particular it
is finite (`some`) even when the volume mean is 0. -/
theorem C5_amended_vol_spike (bars : List Bar) (h : 20 ≤ bars.length)
    (hv : ∀ v ∈ volumes bars, 0 ≤ v) :
    VolSpike bars (bars.length - 1)
      = some ((volumes bars).getD (bars.length - 1) 0
          / (listMean (window (volumes bars) 20 (bars.length - 1)) + eps)) := by
  have hvl : (volumes bars).length = bars.length := by simp [volumes]
  have hv1 : bars.length - 1 < (volumes bars).length := by omega
  have hvi : (volumes bars)[bars.length - 1]?
      = some ((volumes bars).getD (bars.length - 1) 0) := by
    rw [List.getElem?_eq_getElem hv1, List.getD_eq_getElem?_getD,
      List.getElem?_eq_getElem hv1]
    rfl
  have hm : Vol20 bars (bars.length - 1)
      = some (listMean (window (volumes bars) 20 (bars.length - 1))) := by
    unfold Vol20 rollMean
    rw [if_pos ⟨by omega, by rw [hvl]; omega⟩]
  have hwlen : (window (volumes bars) 20 (bars.length - 1)).length = 20 := by
    unfold window
    rw [List.length_take, List.length_drop, hvl]
    omega
  have hwne : window (volumes bars) 20 (bars.length - 1) ≠ [] := by
    intro h0
    rw [h0] at hwlen
    simp at hwlen
  have hmean0 : 0 ≤ listMean (window (volumes bars) 20 (bars.length - 1)) := by
    apply le_listMean hwne
    intro x hx
    apply hv
    unfold window at hx
    exact List.mem_of_mem_drop (List.mem_of_mem_take hx)
  have heps : (0 : ℚ) < eps := by norm_num [eps]
  unfold VolSpike
  rw [hm, hvi]
  simp only [Option.map_some']
  simp only [odiv]
  rw [if_neg (ne_of_gt (by linarith))]

/-- Witness for C5 (amended) at `barsC5`: 21 nonnegative-volume bars; the
emitted vol_spike is today's volume 100 over the including-today mean 5
plus the guard. -/
theorem C5_witness :
    20 ≤ barsC5.length
      ∧ (∀ v ∈ volumes barsC5, 0 ≤ v)
      ∧ VolSpike barsC5 (barsC5.length - 1)
          = some ((volumes barsC5).getD (barsC5.length - 1) 0
              / (listMean (window (volumes barsC5) 20 (barsC5.length - 1))
                + eps)) :=
  ⟨by with_unfolding_all decide, by with_unfolding_all decide,
   C5_amended_vol_spike barsC5 (by with_unfolding_all decide)
     (by with_unfolding_all decide)⟩

/-- **C9**: at the screener's public interface the boolean signals are
total — `breakout20`, `rsi_cross_50` and `gap_up_5` are always exactly 0
or 1 (NaN rolling inputs compare as false and yield 0, as the
short-history cases make explicit), and the emitted `vol_spike` replaces
a non-finite value by 0, so none of these emitted fields is NaN. -/
theorem C9_signals_total (bars : List Bar) :
    (Breakout20 bars (bars.length - 1) = 0
        ∨ Breakout20 bars (bars.length - 1) = 1)
      ∧ (RSI_Cross_50 bars (bars.length - 1) = 0
        ∨ RSI_Cross_50 bars (bars.length - 1) = 1)
      ∧ (GapUp5 bars (bars.length - 1) = 0
        ∨ GapUp5 bars (bars.length - 1) = 1)
      ∧ (bars.length < 21 → Breakout20 bars (bars.length - 1) = 0)
      ∧ (bars.length < 15 → RSI_Cross_50 bars (bars.length - 1) = 0)
      ∧ (bars.length < 2 → GapUp5 bars (bars.length - 1) = 0)
      ∧ (bars.length < 20 → VolSpike bars (bars.length - 1) = none)
      ∧ (VolSpike bars (bars.length - 1) = none → vol_spike_out bars = 0)
      ∧ (∀ v : ℚ, VolSpike bars (bars.length - 1) = some v →
          vol_spike_out bars = v) := by
  refine ⟨Breakout20_zero_or_one bars _, RSI_Cross_50_zero_or_one bars _,
    GapUp5_zero_or_one bars _, ?_, ?_, ?_, ?_, ?_, ?_⟩
  · intro hlen
    have hsh : shift1 (High20 bars) (bars.length - 1) = none := by
      unfold shift1
      split_ifs with h0
      · rfl
      · unfold High20 rollMax
        exact if_neg (by rintro ⟨h1, _⟩; omega)
    unfold Breakout20
    rw [hsh, oltB_none_left]
    simp
  · intro hlen
    have hsh : oleB (shift1 (RSI14 bars) (bars.length - 1)) (some 50)
        = false := by
      unfold shift1
      split_ifs with h0
      · rfl
      · have hnone : RSI14 bars (bars.length - 1 - 1) = none := by
          unfold RSI14
          have hg : rollMean 14 (gains bars) (bars.length - 1 - 1)
              = none := by
            unfold rollMean
            exact if_neg (by rintro ⟨h1, _⟩; omega)
          rw [hg]
        rw [hnone]
        rfl
    unfold RSI_Cross_50
    rw [hsh, Bool.and_false]
    simp
  · intro hlen
    have h0 : bars.length - 1 = 0 := by omega
    unfold GapUp5
    rw [h0]
    unfold shift1
    rw [if_pos rfl]
    simp [oltB_none_left]
  · intro hlen
    unfold VolSpike
    have hm : Vol20 bars (bars.length - 1) = none := by
      unfold Vol20 rollMean
      exact if_neg (by rintro ⟨h1, _⟩; omega)
    rw [hm]
    simp [odiv_none_right]
  · intro hnone
    unfold vol_spike_out
    rw [hnone]
  · intro v hsome
    unfold vol_spike_out
    rw [hsome]

/-- Witness for C9 on a one-bar history: every rolling input is NaN, and
all emitted signals are 0 / finite. -/
theorem C9_witness :
    Breakout20 [(⟨1, 1, 1, 1, 1⟩ : Bar)]
        ([(⟨1, 1, 1, 1, 1⟩ : Bar)].length - 1) = 0
      ∧ RSI_Cross_50 [(⟨1, 1, 1, 1, 1⟩ : Bar)]
          ([(⟨1, 1, 1, 1, 1⟩ : Bar)].length - 1) = 0
      ∧ GapUp5 [(⟨1, 1, 1, 1, 1⟩ : Bar)]
          ([(⟨1, 1, 1, 1, 1⟩ : Bar)].length - 1) = 0
      ∧ VolSpike [(⟨1, 1, 1, 1, 1⟩ : Bar)]
          ([(⟨1, 1, 1, 1, 1⟩ : Bar)].length - 1) = none := by
  have h := C9_signals_total [(⟨1, 1, 1, 1, 1⟩ : Bar)]
  exact ⟨h.2.2.2.1 (by decide), h.2.2.2.2.1 (by decide),
    h.2.2.2.2.2.1 (by decide), h.2.2.2.2.2.2.1 (by decide)⟩

end Claims

end MarketNova
